import Mathlib

/-
Verification development for the backsoul/quiz server (Go).

The session-state subsystem is shallowly embedded as pure Lean functions
over an explicit store state.  The Redis backing store is modelled as an
in-memory state (`Store`): the string keyspace actually used by the code
("quiz:session:<id>", "quiz:player_sessions:<name>",
"quiz:player:<name>:sessions", "quiz:active_sessions",
"quiz:finished_sessions", "quiz:player_names", "quiz:game_state",
"quiz:question:<id>") is represented by the structured key type `RKey`,
whose constructors correspond one-to-one to those pairwise-distinct key
patterns.  Redis sets are modelled as duplicate-free-by-construction lists
(SADD appends only when absent); SMEMBERS returns the list.  `time.Now()`
is passed in explicitly as a `Nat` argument `now`; Go `int` fields are
modelled as `Int` (the values involved never approach 2^63, so wrap-around
is irrelevant and not modelled); JSON (de)serialization is the identity.

Sources embedded:
  pkg/models/models.go                (GameSession, PlayerAnswer, PrizeLevels, ...)
  pkg/models/game_state.go            (GameState)
  pkg/services/session_service.go     (SessionService, current version: a wrong
                                       answer marks the session "eliminated",
                                       GetActiveSessions keeps spectators,
                                       ClearAllSessions exists)
  pkg/services/game_state_service.go  (GameStateService)
  pkg/handlers/session_handler.go     (SessionHandler.SubmitAnswer pipeline)
  pkg/handlers/game_control_handler.go (GameControlHandler.EndGame sequence)
-/

namespace Quiz

/-- State of the three one-shot lifeline flags (models.LifelinesState). -/
structure LifelinesState where
  fiftyFifty : Bool := false
  audience : Bool := false
  phone : Bool := false
deriving DecidableEq

/-- One submitted answer record (models.PlayerAnswer).  `timestamp` is the
`time.Now()` value passed to the handler. -/
structure PlayerAnswer where
  questionID : Int
  questionNumber : Int
  selectedOption : String
  correctOption : String
  isCorrect : Bool
  timeToAnswer : Int
  lifelinesUsedFor : List String
  timestamp : Nat
  prizeWon : Int
deriving DecidableEq

/-- One player's session record (models.GameSession). -/
structure GameSession where
  id : String
  playerName : String
  currentQuestion : Int
  totalPrize : Int
  lifelinesUsed : LifelinesState
  answersGiven : List PlayerAnswer
  gameStatus : String
  startTime : Nat
  lastActivity : Nat
  currentQuestionID : Int
deriving DecidableEq

/-- The global game state singleton (models.GameState,
pkg/models/game_state.go). -/
structure GameState where
  isActive : Bool
  startTime : Option Nat
  endTime : Option Nat
  message : String
  playerCount : Int
  currentQuestion : Int
  maxQuestions : Int
deriving DecidableEq

/-- A quiz question (models.Question); only the fields the session flow
reads are relevant, but all are kept. -/
structure Question where
  id : Int
  question : String
  options : List (String × String)
  correct : String
  explanation : String
  difficulty : Int
deriving DecidableEq

/-- models.PrizeLevels: the fixed prize table, indexed by ordinal − 1. -/
def prizeLevels : List Int :=
  [100, 200, 300, 500, 1000, 2000, 4000, 8000, 16000, 32000,
   64000, 125000, 250000, 500000, 1000000]

/-- The `MaxQuestions` value the GameStateService stores in every GameState
it writes (game_state_service.go: StartGame, EndGame and the defaults in
GetGameState all use the literal 8). -/
def maxQuestions : Int := 8

/-- Structured image of the Redis keys the code uses.  Each constructor
stands for one key pattern; the patterns are pairwise distinct as strings
(e.g. "quiz:player_sessions:<n>" never collides with
"quiz:player:<n>:sessions"), and each pattern is injective in its
parameter, so this abstraction is faithful to the string keyspace. -/
inductive RKey where
  /-- "quiz:session:<sid>" -/
  | session (sid : String)
  /-- "quiz:player_sessions:<name>" — written by addToPlayerSessions -/
  | playerSessions (name : String)
  /-- "quiz:player:<name>:sessions" — the key ClearAllSessions deletes -/
  | playerColonSessions (name : String)
  /-- "quiz:active_sessions" -/
  | activeSessions
  /-- "quiz:finished_sessions" -/
  | finishedSessions
  /-- "quiz:player_names" -/
  | playerNames
deriving DecidableEq

/-- The modelled Redis state.  `kv` holds the session records (string
values in Redis, deserialized here), `sets` the Redis sets, `gameState`
the value at "quiz:game_state" (absent ⇒ `redis: nil`), `questions` the
question records at "quiz:question:<id>". -/
structure Store where
  kv : List (RKey × GameSession)
  sets : List (RKey × List String)
  gameState : Option GameState
  questions : List (Int × Question)
deriving DecidableEq

/-- Association-list lookup keyed by decidable equality. -/
def alistGet {κ α : Type} [DecidableEq κ] : List (κ × α) → κ → Option α
  | [], _ => none
  | (k0, v) :: t, k => if k0 = k then some v else alistGet t k

/-- Association-list update (replace the first binding or append). -/
def alistSet {κ α : Type} [DecidableEq κ] : List (κ × α) → κ → α → List (κ × α)
  | [], k, v => [(k, v)]
  | (k0, v0) :: t, k, v =>
    if k0 = k then (k, v) :: t else (k0, v0) :: alistSet t k v

/-- Association-list deletion (all bindings for the key). -/
def alistDel {κ α : Type} [DecidableEq κ] : List (κ × α) → κ → List (κ × α)
  | [], _ => []
  | (k0, v0) :: t, k =>
    if k0 = k then alistDel t k else (k0, v0) :: alistDel t k

/-- Redis GET of a session key (returns not-found as `none`). -/
def kvGet (st : Store) (k : RKey) : Option GameSession := alistGet st.kv k

/-- Redis SET of a session key. -/
def kvSet (st : Store) (k : RKey) (v : GameSession) : Store :=
  { st with kv := alistSet st.kv k v }

/-- Redis SMEMBERS (missing key ⇒ empty set). -/
def setMembers (st : Store) (k : RKey) : List String :=
  (alistGet st.sets k).getD []

/-- Redis SADD of one member (no duplicates). -/
def setAdd (st : Store) (k : RKey) (m : String) : Store :=
  let cur := setMembers st k
  if m ∈ cur then st else { st with sets := alistSet st.sets k (cur ++ [m]) }

/-- Redis SREM of one member. -/
def setRemove (st : Store) (k : RKey) (m : String) : Store :=
  { st with sets := alistSet st.sets k ((setMembers st k).filter (· ≠ m)) }

/-- Redis DEL: removes the key whatever its type. -/
def delKey (st : Store) (k : RKey) : Store :=
  { st with kv := alistDel st.kv k, sets := alistDel st.sets k }

/-- SessionService.GetSession: GET "quiz:session:<sid>". -/
def getSession (st : Store) (sid : String) : Option GameSession :=
  kvGet st (RKey.session sid)

/-- SessionService.saveSession: SET "quiz:session:<id>" (the 24h TTL is not
modelled; no claim depends on expiry). -/
def saveSession (st : Store) (s : GameSession) : Store :=
  kvSet st (RKey.session s.id) s

/-- SessionService.UpdateSession: stamps LastActivity, then saves. -/
def updateSession (st : Store) (now : Nat) (s : GameSession) : Store :=
  saveSession st { s with lastActivity := now }

/-- SessionService.getPlayerSessions: SMEMBERS "quiz:player_sessions:<name>". -/
def getPlayerSessions (st : Store) (name : String) : List String :=
  setMembers st (RKey.playerSessions name)

/-- SessionService.addToPlayerSessions: SADD "quiz:player_sessions:<name>". -/
def addToPlayerSessions (st : Store) (name sid : String) : Store :=
  setAdd st (RKey.playerSessions name) sid

/-- SessionService.addToActiveSessions: SADD "quiz:active_sessions". -/
def addToActiveSessions (st : Store) (sid : String) : Store :=
  setAdd st RKey.activeSessions sid

/-- SessionService.removeFromActiveSessions: SREM "quiz:active_sessions". -/
def removeFromActiveSessions (st : Store) (sid : String) : Store :=
  setRemove st RKey.activeSessions sid

/-- SessionService.GetActiveSessionByPlayer: scan the player's session ids
and return the first whose status is "active" (ids whose record fails to
load are skipped); `none` models the "no se encontró sesión activa" error. -/
def getActiveSessionByPlayer (st : Store) (name : String) : Option GameSession :=
  (getPlayerSessions st name).findSome? fun sid =>
    match getSession st sid with
    | none => none
    | some s => if s.gameStatus = "active" then some s else none

/-- SessionService.CreateSession.  `newID` stands for the fresh
`uuid.New().String()`; an existing active session for the player is
returned unchanged, otherwise the new session is saved and indexed. -/
def createSession (st : Store) (now : Nat) (newID name : String) :
    GameSession × Store :=
  match getActiveSessionByPlayer st name with
  | some existing => (existing, st)
  | none =>
    let s : GameSession :=
      { id := newID, playerName := name, currentQuestion := 1, totalPrize := 0,
        lifelinesUsed := {}, answersGiven := [], gameStatus := "active",
        startTime := now, lastActivity := now, currentQuestionID := 0 }
    let st1 := saveSession st s
    let st2 := addToActiveSessions st1 newID
    let st3 := addToPlayerSessions st2 name newID
    (s, st3)

/-- The in-memory session transformation at the heart of
SessionService.AddAnswer: append the answer; on a correct answer bump the
ordinal and overwrite TotalPrize with the answer's PrizeWon, otherwise
mark the session "eliminated"; independently, an ordinal above 15 marks it
"finished".  The threshold 15 is hard-coded in the source. -/
def applyAnswer (session : GameSession) (a : PlayerAnswer) : GameSession :=
  let s1 := { session with answersGiven := session.answersGiven ++ [a] }
  let s2 :=
    if a.isCorrect then
      { s1 with currentQuestion := s1.currentQuestion + 1,
                totalPrize := a.prizeWon }
    else
      { s1 with gameStatus := "eliminated" }
  if s2.currentQuestion > 15 then { s2 with gameStatus := "finished" } else s2

/-- SessionService.AddAnswer: load the session, apply `applyAnswer`, save
through UpdateSession. -/
def addAnswer (st : Store) (now : Nat) (sid : String) (a : PlayerAnswer) :
    Except String Store :=
  match getSession st sid with
  | none => Except.error "sesión no encontrada"
  | some session => Except.ok (updateSession st now (applyAnswer session a))

/-- SessionService.UseLifeline: reject an already-used kind with a domain
error (no write happens in that case), otherwise set the flag and save. -/
def useLifeline (st : Store) (now : Nat) (sid kind : String) :
    Except String Store :=
  match getSession st sid with
  | none => Except.error "sesión no encontrada"
  | some s =>
    if kind = "fiftyFifty" then
      if s.lifelinesUsed.fiftyFifty then
        Except.error "comodín 50:50 ya fue usado"
      else
        Except.ok (updateSession st now
          { s with lifelinesUsed := { s.lifelinesUsed with fiftyFifty := true } })
    else if kind = "audience" then
      if s.lifelinesUsed.audience then
        Except.error "comodín pregunta al público ya fue usado"
      else
        Except.ok (updateSession st now
          { s with lifelinesUsed := { s.lifelinesUsed with audience := true } })
    else if kind = "phone" then
      if s.lifelinesUsed.phone then
        Except.error "comodín llamada telefónica ya fue usado"
      else
        Except.ok (updateSession st now
          { s with lifelinesUsed := { s.lifelinesUsed with phone := true } })
    else
      Except.error ("tipo de comodín desconocido: " ++ kind)

/-- One iteration of the SessionService.GetActiveSessions loop: load the
session; keep "active" and "eliminated" ones in the result, drop a
"finished" one from the active index, skip anything else. -/
def gasStep (acc : List GameSession × Store) (sid : String) :
    List GameSession × Store :=
  match getSession acc.2 sid with
  | none => acc
  | some s =>
    if s.gameStatus = "active" ∨ s.gameStatus = "eliminated" then
      (acc.1 ++ [s], acc.2)
    else if s.gameStatus = "finished" then
      (acc.1, removeFromActiveSessions acc.2 sid)
    else acc

/-- The GetActiveSessions loop over the pre-fetched id list. -/
def gasLoop (acc : List GameSession × Store) : List String →
    List GameSession × Store
  | [] => acc
  | sid :: rest => gasLoop (gasStep acc sid) rest

/-- SessionService.GetActiveSessions: SMEMBERS "quiz:active_sessions", then
the loop above.  Returns the listed sessions and the (possibly cleaned-up)
store. -/
def getActiveSessions (st : Store) : List GameSession × Store :=
  gasLoop ([], st) (setMembers st RKey.activeSessions)

/-- SessionService.ClearAllSessions: list the active sessions (itself a
cleanup scan), delete each listed session record and the key
"quiz:player:<name>:sessions", then delete "quiz:active_sessions",
"quiz:finished_sessions" and "quiz:player_names". -/
def clearAllSessions (st : Store) : Store :=
  let scan := getActiveSessions st
  let st2 := scan.1.foldl
    (fun acc s =>
      delKey (delKey acc (RKey.session s.id)) (RKey.playerColonSessions s.playerName))
    scan.2
  let st3 := delKey st2 RKey.activeSessions
  let st4 := delKey st3 RKey.finishedSessions
  delKey st4 RKey.playerNames

/-- The initial GameState returned by GameStateService.GetGameState when
the "quiz:game_state" key is absent (`redis: nil`). -/
def initialGameState : GameState :=
  { isActive := false, startTime := none, endTime := none,
    message := "Partida detenida - Los jugadores no pueden ingresar",
    playerCount := 0, currentQuestion := 1, maxQuestions := 8 }

/-- GameStateService.calculateCurrentQuestion: scan the active sessions and
return the highest ordinal reached by any of them, defaulting to 1.  The
scan itself may clean the active index, so the store is threaded. -/
def calculateCurrentQuestion (st : Store) : Int × Store :=
  let scan := getActiveSessions st
  if scan.1.isEmpty then (1, scan.2)
  else
    (scan.1.foldl
      (fun m s => if s.currentQuestion > m then s.currentQuestion else m) 1,
     scan.2)

/-- GameStateService.GetGameState.  `hasSessionService` models whether
SetSessionService injected a session service (the recompute of
CurrentQuestion is guarded on `gs.sessionService != nil && IsActive`). -/
def getGameState (st : Store) (hasSessionService : Bool) : GameState × Store :=
  match st.gameState with
  | none => (initialGameState, st)
  | some gs0 =>
    let step :=
      if hasSessionService ∧ gs0.isActive then
        let recomputed := calculateCurrentQuestion st
        ({ gs0 with currentQuestion := recomputed.1 }, recomputed.2)
      else (gs0, st)
    let gs2 :=
      if step.1.maxQuestions = 0 then { step.1 with maxQuestions := 8 }
      else step.1
    (gs2, step.2)

/-- GameStateService.StartGame: overwrite the game state with an active
round starting now. -/
def startGame (st : Store) (now : Nat) : Store :=
  let gs : GameState :=
    { isActive := true, startTime := some now, endTime := none,
      message := "Partida activa - Los jugadores pueden ingresar",
      playerCount := 0, currentQuestion := 1, maxQuestions := 8 }
  { st with gameState := some gs }

/-- GameStateService.EndGame: read the current state (with recompute),
flip it inactive, stamp EndTime, reset CurrentQuestion, store it. -/
def endGameService (st : Store) (hasSessionService : Bool) (now : Nat) : Store :=
  let cur := getGameState st hasSessionService
  let gs : GameState :=
    { cur.1 with
      isActive := false, endTime := (some now),
      message := "Partida terminada - Los jugadores no pueden ingresar",
      currentQuestion := 1, maxQuestions := 8 }
  { cur.2 with gameState := some gs }

/-- QuestionService.GetQuestion by id (not-found as `none`). -/
def getQuestion (st : Store) (qid : Int) : Option Question :=
  alistGet st.questions qid

/-- The PlayerAnswer record SessionHandler.SubmitAnswer builds: graded
against the question's correct option, with the prize taken from the table
at index CurrentQuestion−1 when the answer is correct and the ordinal is
within the table, 0 otherwise. -/
def submittedAnswer (session : GameSession) (question : Question)
    (questionID : Int) (selectedOption : String) (timeToAnswer : Int)
    (now : Nat) : PlayerAnswer :=
  let isCorrect := selectedOption = question.correct
  let prizeWon : Int :=
    if isCorrect ∧ session.currentQuestion ≤ (prizeLevels.length : Int)
    then prizeLevels.getD (session.currentQuestion - 1).toNat 0
    else 0
  { questionID := questionID,
    questionNumber := session.currentQuestion,
    selectedOption := selectedOption,
    correctOption := question.correct,
    isCorrect := decide isCorrect,
    timeToAnswer := timeToAnswer,
    lifelinesUsedFor := [],
    timestamp := now,
    prizeWon := prizeWon }

/-- SessionHandler.SubmitAnswer (pkg/handlers/session_handler.go): validate
the question id, load session and question, grade and price the answer via
`submittedAnswer` and hand it to AddAnswer.  A correct answer with
CurrentQuestion ≤ 15 but < 1 would index PrizeLevels at a negative
position, a Go runtime panic; that unreachable-by-construction case is
modelled as an explicit error. -/
def submitAnswer (st : Store) (now : Nat) (sid : String) (questionID : Int)
    (selectedOption : String) (timeToAnswer : Int) : Except String Store :=
  if questionID ≤ 0 then Except.error "ID de pregunta inválido"
  else
    match getSession st sid with
    | none => Except.error "Sesión no encontrada"
    | some session =>
      match getQuestion st questionID with
      | none => Except.error "Pregunta no encontrada"
      | some question =>
        if selectedOption = question.correct ∧
            session.currentQuestion ≤ (prizeLevels.length : Int) ∧
            session.currentQuestion < 1 then
          Except.error "runtime error: index out of range"
        else
          addAnswer st now sid
            (submittedAnswer session question questionID selectedOption
              timeToAnswer now)

/-- The externally visible actions of the round-end sequence, in the order
GameControlHandler.EndGame performs them. -/
inductive EndEvent where
  /-- hub.BroadcastMessage("gameEnded", ...) before any data is wiped -/
  | broadcastGameEnded
  /-- sessionService.ClearAllSessions() -/
  | clearAllData
  /-- hub.BroadcastGameState(false, ...) after the wipe -/
  | broadcastInactiveState
deriving DecidableEq

/-- GameControlHandler.EndGame (pkg/handlers/game_control_handler.go):
reject when no round is active; otherwise snapshot the player count, end
the round in the game-state service, broadcast "gameEnded", (sleep,) wipe
all session data, and broadcast the inactive game state.  The returned
event list records the order of the broadcasts and the wipe. -/
def endGameHandler (st : Store) (hasSessionService : Bool) (now : Nat) :
    Except String (Store × List EndEvent) :=
  let cur := getGameState st hasSessionService
  if ¬ cur.1.isActive then
    Except.error "No hay partida activa para terminar"
  else
    let scan := getActiveSessions cur.2
    let _totalPlayers := scan.1.length
    let st3 := endGameService scan.2 hasSessionService now
    let ev1 := [EndEvent.broadcastGameEnded]
    let st4 := clearAllSessions st3
    let ev2 := ev1 ++ [EndEvent.clearAllData]
    let ev3 := ev2 ++ [EndEvent.broadcastInactiveState]
    Except.ok (st4, ev3)

/- ------------------------------------------------------------------ -/
/- Proof-layer projections and concrete fixtures                       -/
/- ------------------------------------------------------------------ -/

/-- Projection of the lifeline flag UseLifeline consults for a given kind
string (false for an unknown kind). -/
def lifelineFlag (s : GameSession) (kind : String) : Bool :=
  if kind = "fiftyFifty" then s.lifelinesUsed.fiftyFifty
  else if kind = "audience" then s.lifelinesUsed.audience
  else if kind = "phone" then s.lifelinesUsed.phone
  else false

/-- A freshly created session for player "Ana" (exactly the record
CreateSession builds, with `now = 0` and id "s1"). -/
def anaSession : GameSession :=
  { id := "s1", playerName := "Ana", currentQuestion := 1, totalPrize := 0,
    lifelinesUsed := {}, answersGiven := [], gameStatus := "active",
    startTime := 0, lastActivity := 0, currentQuestionID := 0 }

/-- A question whose correct option is "A". -/
def sampleQuestion : Question :=
  { id := 1, question := "q", options := [("A", "4"), ("B", "5")],
    correct := "A", explanation := "", difficulty := 1 }

/-- A store holding Ana's fresh session, properly indexed, and the sample
question. -/
def sampleStore : Store :=
  { kv := [(RKey.session "s1", anaSession)],
    sets := [(RKey.activeSessions, ["s1"]), (RKey.playerSessions "Ana", ["s1"])],
    gameState := none,
    questions := [(1, sampleQuestion)] }

/-- Ana's session at ordinal 8 (= MaxQuestions) during normal play. -/
def anaAt8 : GameSession :=
  { anaSession with currentQuestion := 8, totalPrize := 4000 }

/-- The sample store with Ana at ordinal 8. -/
def storeAt8 : Store :=
  { sampleStore with kv := [(RKey.session "s1", anaAt8)] }

/-- Ana's session after elimination at ordinal 3. -/
def anaEliminated : GameSession :=
  { anaSession with
    currentQuestion := 3, totalPrize := 200, gameStatus := "eliminated" }

/-- The sample store with Ana eliminated. -/
def storeEliminated : Store :=
  { sampleStore with kv := [(RKey.session "s1", anaEliminated)] }

/-- Bob's session, finished after winning everything. -/
def bobFinished : GameSession :=
  { anaSession with
    id := "s2", playerName := "Bob", currentQuestion := 16,
    totalPrize := 1000000, gameStatus := "finished" }

/-- A store with an eliminated Ana (id "s1") and a finished Bob (id "s2"),
both still listed in the active-session index. -/
def mixedStore : Store :=
  { kv := [(RKey.session "s1", anaEliminated),
           (RKey.session "s2", bobFinished)],
    sets := [(RKey.activeSessions, ["s1", "s2"]),
             (RKey.playerSessions "Ana", ["s1"]),
             (RKey.playerSessions "Bob", ["s2"])],
    gameState := none,
    questions := [(1, sampleQuestion)] }

/-- A game state for an active round (as StartGame writes it at t = 0). -/
def activeGameState : GameState :=
  { isActive := true, startTime := some 0, endTime := none,
    message := "Partida activa - Los jugadores pueden ingresar",
    playerCount := 0, currentQuestion := 1, maxQuestions := 8 }

/-- `mixedStore` with the round marked active. -/
def activeRoundStore : Store :=
  { mixedStore with gameState := some activeGameState }

/-- One correct-answer submission by Ana (the store on success, unchanged
on error) — the step repeated to reach the end of the question sequence. -/
def submitStepA (st : Store) : Store :=
  match submitAnswer st 0 "s1" 1 "A" 0 with
  | Except.ok st' => st'
  | Except.error _ => st

/-- The store after Ana has answered correctly 15 times from a fresh
session: her session is at ordinal 16, "finished", with the top prize. -/
def champStore : Store := submitStepA^[15] sampleStore

/- ------------------------------------------------------------------ -/
/- Basic lemmas about the store primitives                             -/
/- ------------------------------------------------------------------ -/

theorem alistGet_set_self {κ α : Type} [DecidableEq κ]
    (l : List (κ × α)) (k : κ) (v : α) :
    alistGet (alistSet l k v) k = some v := by
  induction l with
  | nil => simp [alistSet, alistGet]
  | cons p t ih =>
    obtain ⟨k0, v0⟩ := p
    by_cases h : k0 = k
    · simp [alistSet, alistGet, h]
    · simp [alistSet, alistGet, h, ih]

theorem alistGet_set_ne {κ α : Type} [DecidableEq κ]
    (l : List (κ × α)) (k k' : κ) (v : α) (h : k' ≠ k) :
    alistGet (alistSet l k v) k' = alistGet l k' := by
  have hk : ¬ k = k' := fun hh => h hh.symm
  induction l with
  | nil => simp [alistSet, alistGet, hk]
  | cons p t ih =>
    obtain ⟨k0, v0⟩ := p
    by_cases h0 : k0 = k
    · subst h0
      simp [alistSet, alistGet, hk]
    · simp only [alistSet, alistGet, if_neg h0]
      by_cases h1 : k0 = k'
      · simp [alistGet, h1]
      · simp [alistGet, h1, ih]

theorem alistGet_del_self {κ α : Type} [DecidableEq κ]
    (l : List (κ × α)) (k : κ) :
    alistGet (alistDel l k) k = none := by
  induction l with
  | nil => simp [alistDel, alistGet]
  | cons p t ih =>
    obtain ⟨k0, v0⟩ := p
    by_cases h : k0 = k
    · simpa [alistDel, alistGet, h] using ih
    · simpa [alistDel, alistGet, h] using ih

theorem alistGet_del_ne {κ α : Type} [DecidableEq κ]
    (l : List (κ × α)) (k k' : κ) (h : k' ≠ k) :
    alistGet (alistDel l k) k' = alistGet l k' := by
  induction l with
  | nil => simp [alistDel, alistGet]
  | cons p t ih =>
    obtain ⟨k0, v0⟩ := p
    by_cases h0 : k0 = k
    · subst h0
      have hk : ¬ k0 = k' := fun hh => h hh.symm
      simpa [alistDel, alistGet, hk] using ih
    · by_cases h1 : k0 = k'
      · simp [alistDel, alistGet, h0, h1, h]
      · simpa [alistDel, alistGet, h0, h1] using ih

/-- Reading back the session just written by UpdateSession. -/
theorem getSession_updateSession_self (st : Store) (now : Nat) (s : GameSession) :
    getSession (updateSession st now s) s.id = some { s with lastActivity := now } := by
  simp [getSession, updateSession, saveSession, kvSet, kvGet, alistGet_set_self]

/-- Keyed variant of `getSession_updateSession_self`. -/
theorem getSession_updateSession (st : Store) (now : Nat) (s : GameSession)
    (sid : String) (hid : s.id = sid) :
    getSession (updateSession st now s) sid = some { s with lastActivity := now } := by
  subst hid
  exact getSession_updateSession_self st now s

/-- UpdateSession leaves every other session record untouched. -/
theorem getSession_updateSession_ne (st : Store) (now : Nat) (s : GameSession)
    (sid : String) (h : sid ≠ s.id) :
    getSession (updateSession st now s) sid = getSession st sid := by
  simp only [getSession, updateSession, saveSession, kvSet, kvGet]
  exact alistGet_set_ne _ _ _ _ (by simp [h])

theorem prizeLevels_length : prizeLevels.length = 15 := rfl

/-- AddAnswer on a loadable session is UpdateSession of the transformed
session. -/
theorem addAnswer_eq (st : Store) (now : Nat) (sid : String) (a : PlayerAnswer)
    (s : GameSession) (hs : getSession st sid = some s) :
    addAnswer st now sid a = Except.ok (updateSession st now (applyAnswer s a)) := by
  unfold addAnswer
  rw [hs]

/-- SubmitAnswer on a loadable session and question with a valid id and a
1-based ordinal reduces to AddAnswer of the graded answer. -/
theorem submitAnswer_eq (st : Store) (now : Nat) (sid : String)
    (qid tta : Int) (sel : String) (s : GameSession) (q : Question)
    (hs : getSession st sid = some s) (hq : getQuestion st qid = some q)
    (hqid : 0 < qid) (hcq : 1 ≤ s.currentQuestion) :
    submitAnswer st now sid qid sel tta =
      Except.ok (updateSession st now
        (applyAnswer s (submittedAnswer s q qid sel tta now))) := by
  have h0 : ¬ qid ≤ 0 := by omega
  have h1 : ¬ (sel = q.correct ∧ s.currentQuestion ≤ (prizeLevels.length : Int) ∧
      s.currentQuestion < 1) := by
    rintro ⟨-, -, h⟩
    omega
  simp only [submitAnswer, if_neg h0, hs, hq, if_neg h1]
  exact addAnswer_eq st now sid _ s hs

/-- applyAnswer never changes the session id. -/
theorem applyAnswer_id (s : GameSession) (a : PlayerAnswer) :
    (applyAnswer s a).id = s.id := by
  unfold applyAnswer
  by_cases hc : a.isCorrect <;> simp [hc] <;> split <;> rfl

/-- Field values of applyAnswer on a correct answer. -/
theorem applyAnswer_correct (s : GameSession) (a : PlayerAnswer)
    (hc : a.isCorrect = true) :
    (applyAnswer s a).currentQuestion = s.currentQuestion + 1 ∧
    (applyAnswer s a).totalPrize = a.prizeWon ∧
    (applyAnswer s a).answersGiven = s.answersGiven ++ [a] ∧
    (applyAnswer s a).gameStatus =
      (if s.currentQuestion + 1 > 15 then "finished" else s.gameStatus) := by
  unfold applyAnswer
  simp only [hc, if_true]
  by_cases h : s.currentQuestion + 1 > 15 <;> simp [h]

/-- Field values of applyAnswer on an incorrect answer. -/
theorem applyAnswer_incorrect (s : GameSession) (a : PlayerAnswer)
    (hc : a.isCorrect = false) :
    (applyAnswer s a).currentQuestion = s.currentQuestion ∧
    (applyAnswer s a).totalPrize = s.totalPrize ∧
    (applyAnswer s a).answersGiven = s.answersGiven ++ [a] ∧
    (applyAnswer s a).gameStatus =
      (if s.currentQuestion > 15 then "finished" else "eliminated") := by
  unfold applyAnswer
  simp only [hc, if_false, Bool.false_eq_true]
  by_cases h : s.currentQuestion > 15 <;> simp [h]

/- ------------------------------------------------------------------ -/
/- C1                                                                  -/
/- ------------------------------------------------------------------ -/

/-- C1: for a session at ordinal k with 1 ≤ k ≤ maxQuestions, submitting a
correct answer yields currentQuestion = k+1 and totalPrize equal to the
prize-table entry at index k−1; submitting an incorrect answer yields
gameStatus = "eliminated" with currentQuestion still k. -/
theorem submitAnswer_progress_and_elimination
    (st : Store) (now : Nat) (sid : String) (s : GameSession) (q : Question)
    (qid tta k : Int) (sel : String)
    (hs : getSession st sid = some s) (hid : s.id = sid)
    (hk : s.currentQuestion = k) (hk1 : 1 ≤ k) (hkmax : k ≤ maxQuestions)
    (hq : getQuestion st qid = some q) (hqid : 0 < qid) :
    (sel = q.correct →
      ∃ st' s', submitAnswer st now sid qid sel tta = Except.ok st' ∧
        getSession st' sid = some s' ∧
        s'.currentQuestion = k + 1 ∧
        s'.totalPrize = prizeLevels.getD (k - 1).toNat 0) ∧
    (sel ≠ q.correct →
      ∃ st' s', submitAnswer st now sid qid sel tta = Except.ok st' ∧
        getSession st' sid = some s' ∧
        s'.gameStatus = "eliminated" ∧ s'.currentQuestion = k) := by
  have hk15 : k ≤ 15 := by
    have h8 : maxQuestions = 8 := rfl
    omega
  have hsub := submitAnswer_eq st now sid qid tta sel s q hs hq hqid (by omega)
  have hget := getSession_updateSession_self st now
    (applyAnswer s (submittedAnswer s q qid sel tta now))
  rw [applyAnswer_id, hid] at hget
  constructor
  · intro hc
    have hca : (submittedAnswer s q qid sel tta now).isCorrect = true := by
      simp [submittedAnswer, hc]
    obtain ⟨h1, h2, -, -⟩ := applyAnswer_correct s (submittedAnswer s q qid sel tta now) hca
    refine ⟨_, _, hsub, hget, ?_, ?_⟩
    · show (applyAnswer s (submittedAnswer s q qid sel tta now)).currentQuestion = k + 1
      rw [h1, hk]
    · show (applyAnswer s (submittedAnswer s q qid sel tta now)).totalPrize =
        prizeLevels.getD (k - 1).toNat 0
      rw [h2]
      simp only [submittedAnswer]
      rw [if_pos ⟨hc, by rw [hk, prizeLevels_length]; omega⟩, hk]
  · intro hc
    have hca : (submittedAnswer s q qid sel tta now).isCorrect = false := by
      simp [submittedAnswer, hc]
    obtain ⟨h1, -, -, h4⟩ := applyAnswer_incorrect s (submittedAnswer s q qid sel tta now) hca
    refine ⟨_, _, hsub, hget, ?_, ?_⟩
    · show (applyAnswer s (submittedAnswer s q qid sel tta now)).gameStatus = "eliminated"
      rw [h4, if_neg (by omega)]
    · show (applyAnswer s (submittedAnswer s q qid sel tta now)).currentQuestion = k
      rw [h1, hk]

/-- C1 witness: Ana at ordinal 1 in the sample store; the correct branch
gives ordinal 2 and the prize at table index 0. -/
theorem submitAnswer_progress_and_elimination_witness :
    ("A" = sampleQuestion.correct →
      ∃ st' s', submitAnswer sampleStore 0 "s1" 1 "A" 0 = Except.ok st' ∧
        getSession st' "s1" = some s' ∧
        s'.currentQuestion = 1 + 1 ∧
        s'.totalPrize = prizeLevels.getD ((1 : Int) - 1).toNat 0) ∧
    ("A" ≠ sampleQuestion.correct →
      ∃ st' s', submitAnswer sampleStore 0 "s1" 1 "A" 0 = Except.ok st' ∧
        getSession st' "s1" = some s' ∧
        s'.gameStatus = "eliminated" ∧ s'.currentQuestion = 1) :=
  submitAnswer_progress_and_elimination sampleStore 0 "s1" anaSession
    sampleQuestion 1 0 1 "A" rfl rfl rfl (by decide) (by decide) rfl (by decide)

/- ------------------------------------------------------------------ -/
/- C2                                                                  -/
/- ------------------------------------------------------------------ -/

/-- C2 counterexample: GameState's MaxQuestions is 8, and a correct answer
taking Ana's ordinal from 8 to 9 > MaxQuestions leaves her session
"active", not "finished" (AddAnswer compares against the hard-coded 15,
not against MaxQuestions). -/
theorem addAnswer_past_maxQuestions_not_finished :
    maxQuestions = 8 ∧
    ∃ st', submitAnswer storeAt8 0 "s1" 1 "A" 0 = Except.ok st' ∧
      ∃ s', getSession st' "s1" = some s' ∧
        s'.currentQuestion = 9 ∧ maxQuestions < s'.currentQuestion ∧
        s'.gameStatus = "active" := by
  refine ⟨rfl, _, rfl, _, rfl, ?_, ?_, ?_⟩ <;> decide

/-- C2 amended: for an "active" session at ordinal k ≥ 1, a correct answer
yields gameStatus = "finished" exactly when the new ordinal k+1 exceeds 15
(the hard-coded threshold in AddAnswer, = the prize-table length), not
when it exceeds GameState's maxQuestions = 8. -/
theorem submitAnswer_finished_iff_past_15
    (st : Store) (now : Nat) (sid : String) (s : GameSession) (q : Question)
    (qid tta k : Int) (sel : String)
    (hs : getSession st sid = some s) (hid : s.id = sid)
    (hk : s.currentQuestion = k) (hk1 : 1 ≤ k)
    (hstatus : s.gameStatus = "active")
    (hq : getQuestion st qid = some q) (hqid : 0 < qid)
    (hc : sel = q.correct) :
    ∃ st' s', submitAnswer st now sid qid sel tta = Except.ok st' ∧
      getSession st' sid = some s' ∧
      (s'.gameStatus = "finished" ↔ 15 < k + 1) := by
  have hsub := submitAnswer_eq st now sid qid tta sel s q hs hq hqid (by omega)
  have hget := getSession_updateSession_self st now
    (applyAnswer s (submittedAnswer s q qid sel tta now))
  rw [applyAnswer_id, hid] at hget
  have hca : (submittedAnswer s q qid sel tta now).isCorrect = true := by
    simp [submittedAnswer, hc]
  obtain ⟨-, -, -, h4⟩ := applyAnswer_correct s (submittedAnswer s q qid sel tta now) hca
  refine ⟨_, _, hsub, hget, ?_⟩
  show (applyAnswer s (submittedAnswer s q qid sel tta now)).gameStatus = "finished"
    ↔ 15 < k + 1
  rw [h4, hk, hstatus]
  constructor
  · intro hfin
    by_contra hnot
    rw [if_neg (by omega)] at hfin
    exact absurd hfin (by decide)
  · intro hlt
    rw [if_pos (by omega)]

/-- C2 amended witness: Ana at ordinal 15 answers correctly and her session
is "finished" (16 > 15). -/
theorem submitAnswer_finished_iff_past_15_witness :
    ∃ st' s', submitAnswer
        ({ sampleStore with
           kv := [(RKey.session "s1", { anaSession with currentQuestion := 15 })] })
        0 "s1" 1 "A" 0 = Except.ok st' ∧
      getSession st' "s1" = some s' ∧
      (s'.gameStatus = "finished" ↔ (15 : Int) < 15 + 1) :=
  submitAnswer_finished_iff_past_15 _ 0 "s1"
    ({ anaSession with currentQuestion := 15 }) sampleQuestion 1 0 15 "A"
    rfl rfl rfl (by decide) rfl rfl (by decide) rfl

/- ------------------------------------------------------------------ -/
/- C10                                                                 -/
/- ------------------------------------------------------------------ -/

/-- C10: SubmitAnswer has no precondition on gameStatus: an "eliminated"
or "finished" session still accepts a submission, the answer is appended
to answersGiven, and a correct answer increments currentQuestion and
overwrites totalPrize with the answer's prize. -/
theorem submitAnswer_no_status_precondition
    (st : Store) (now : Nat) (sid : String) (s : GameSession) (q : Question)
    (qid tta : Int) (sel : String)
    (hs : getSession st sid = some s) (hid : s.id = sid)
    (hq : getQuestion st qid = some q) (hqid : 0 < qid)
    (hcq : 1 ≤ s.currentQuestion)
    (_hstatus : s.gameStatus = "eliminated" ∨ s.gameStatus = "finished") :
    ∃ st' s', submitAnswer st now sid qid sel tta = Except.ok st' ∧
      getSession st' sid = some s' ∧
      s'.answersGiven = s.answersGiven ++ [submittedAnswer s q qid sel tta now] ∧
      (sel = q.correct →
        s'.currentQuestion = s.currentQuestion + 1 ∧
        s'.totalPrize = (submittedAnswer s q qid sel tta now).prizeWon) := by
  have hsub := submitAnswer_eq st now sid qid tta sel s q hs hq hqid hcq
  have hget := getSession_updateSession_self st now
    (applyAnswer s (submittedAnswer s q qid sel tta now))
  rw [applyAnswer_id, hid] at hget
  refine ⟨_, _, hsub, hget, ?_, ?_⟩
  · show (applyAnswer s (submittedAnswer s q qid sel tta now)).answersGiven =
      s.answersGiven ++ [submittedAnswer s q qid sel tta now]
    by_cases hc : sel = q.correct
    · exact (applyAnswer_correct s _ (by simp [submittedAnswer, hc])).2.2.1
    · exact (applyAnswer_incorrect s _ (by simp [submittedAnswer, hc])).2.2.1
  · intro hc
    obtain ⟨h1, h2, -, -⟩ :=
      applyAnswer_correct s (submittedAnswer s q qid sel tta now)
        (by simp [submittedAnswer, hc])
    exact ⟨h1, h2⟩

/-- C10 witness: the eliminated Ana still gets her correct answer recorded
and her ordinal and prize updated. -/
theorem submitAnswer_no_status_precondition_witness :
    ∃ st' s', submitAnswer storeEliminated 0 "s1" 1 "A" 0 = Except.ok st' ∧
      getSession st' "s1" = some s' ∧
      s'.answersGiven =
        anaEliminated.answersGiven ++
          [submittedAnswer anaEliminated sampleQuestion 1 "A" 0 0] ∧
      ("A" = sampleQuestion.correct →
        s'.currentQuestion = anaEliminated.currentQuestion + 1 ∧
        s'.totalPrize =
          (submittedAnswer anaEliminated sampleQuestion 1 "A" 0 0).prizeWon) :=
  submitAnswer_no_status_precondition storeEliminated 0 "s1" anaEliminated
    sampleQuestion 1 0 "A" rfl rfl rfl (by decide) (by decide) (Or.inl rfl)

/- ------------------------------------------------------------------ -/
/- C6                                                                  -/
/- ------------------------------------------------------------------ -/

/-- UseLifeline("fiftyFifty") on an unused flag: success path. -/
theorem useLifeline_fifty_ok (st : Store) (now : Nat) (sid : String)
    (s : GameSession) (hs : getSession st sid = some s)
    (hflag : s.lifelinesUsed.fiftyFifty = false) :
    useLifeline st now sid "fiftyFifty" = Except.ok (updateSession st now
      { s with lifelinesUsed := { s.lifelinesUsed with fiftyFifty := true } }) := by
  simp [useLifeline, hs, hflag]

/-- UseLifeline("audience") on an unused flag: success path. -/
theorem useLifeline_audience_ok (st : Store) (now : Nat) (sid : String)
    (s : GameSession) (hs : getSession st sid = some s)
    (hflag : s.lifelinesUsed.audience = false) :
    useLifeline st now sid "audience" = Except.ok (updateSession st now
      { s with lifelinesUsed := { s.lifelinesUsed with audience := true } }) := by
  have hd : ("audience" : String) ≠ "fiftyFifty" := by decide
  simp [useLifeline, hs, hflag, hd]

/-- UseLifeline("phone") on an unused flag: success path. -/
theorem useLifeline_phone_ok (st : Store) (now : Nat) (sid : String)
    (s : GameSession) (hs : getSession st sid = some s)
    (hflag : s.lifelinesUsed.phone = false) :
    useLifeline st now sid "phone" = Except.ok (updateSession st now
      { s with lifelinesUsed := { s.lifelinesUsed with phone := true } }) := by
  have hd1 : ("phone" : String) ≠ "fiftyFifty" := by decide
  have hd2 : ("phone" : String) ≠ "audience" := by decide
  simp [useLifeline, hs, hflag, hd1, hd2]

/-- UseLifeline("fiftyFifty") on a used flag: the conflict error. -/
theorem useLifeline_fifty_used (st : Store) (now : Nat) (sid : String)
    (s : GameSession) (hs : getSession st sid = some s)
    (hflag : s.lifelinesUsed.fiftyFifty = true) :
    useLifeline st now sid "fiftyFifty" =
      Except.error "comodín 50:50 ya fue usado" := by
  simp [useLifeline, hs, hflag]

/-- UseLifeline("audience") on a used flag: the conflict error. -/
theorem useLifeline_audience_used (st : Store) (now : Nat) (sid : String)
    (s : GameSession) (hs : getSession st sid = some s)
    (hflag : s.lifelinesUsed.audience = true) :
    useLifeline st now sid "audience" =
      Except.error "comodín pregunta al público ya fue usado" := by
  have hd : ("audience" : String) ≠ "fiftyFifty" := by decide
  simp [useLifeline, hs, hflag, hd]

/-- UseLifeline("phone") on a used flag: the conflict error. -/
theorem useLifeline_phone_used (st : Store) (now : Nat) (sid : String)
    (s : GameSession) (hs : getSession st sid = some s)
    (hflag : s.lifelinesUsed.phone = true) :
    useLifeline st now sid "phone" =
      Except.error "comodín llamada telefónica ya fue usado" := by
  have hd1 : ("phone" : String) ≠ "fiftyFifty" := by decide
  have hd2 : ("phone" : String) ≠ "audience" := by decide
  simp [useLifeline, hs, hflag, hd1, hd2]

/-- C6: for any session and any lifeline kind among fiftyFifty, audience,
phone: the first UseLifeline call succeeds and sets the flag; a second call
for the same kind fails with the "ya fue usado" conflict error; and the
flags of the other kinds are untouched, so a different unused kind can
still be used on the resulting session.  The error branches of UseLifeline
return before UpdateSession, so a failing call performs no write at all —
in this embedding an `Except.error` result carries no store, which encodes
exactly that the session is left unchanged. -/
theorem useLifeline_one_shot_and_independent
    (st : Store) (now now2 now3 : Nat) (sid kind : String) (s : GameSession)
    (hs : getSession st sid = some s) (hid : s.id = sid)
    (hkind : kind = "fiftyFifty" ∨ kind = "audience" ∨ kind = "phone")
    (hunused : lifelineFlag s kind = false) :
    ∃ st' s', useLifeline st now sid kind = Except.ok st' ∧
      getSession st' sid = some s' ∧ lifelineFlag s' kind = true ∧
      (∃ msg, useLifeline st' now2 sid kind = Except.error msg) ∧
      (∀ kind2, (kind2 = "fiftyFifty" ∨ kind2 = "audience" ∨ kind2 = "phone") →
        kind2 ≠ kind →
        lifelineFlag s' kind2 = lifelineFlag s kind2 ∧
        (lifelineFlag s kind2 = false →
          ∃ st2, useLifeline st' now3 sid kind2 = Except.ok st2)) := by
  have hd1 : ("audience" : String) ≠ "fiftyFifty" := by decide
  have hd2 : ("phone" : String) ≠ "fiftyFifty" := by decide
  have hd3 : ("phone" : String) ≠ "audience" := by decide
  rcases hkind with hkf | hka | hkp
  · subst hkf
    have hflag : s.lifelinesUsed.fiftyFifty = false := by
      simpa [lifelineFlag] using hunused
    have hget := getSession_updateSession st now
      ({ s with lifelinesUsed := { s.lifelinesUsed with fiftyFifty := true } })
      sid hid
    refine ⟨_, _, useLifeline_fifty_ok st now sid s hs hflag, hget, ?_, ?_, ?_⟩
    · simp [lifelineFlag]
    · exact ⟨_, useLifeline_fifty_used _ now2 sid _ hget rfl⟩
    · rintro kind2 (h2 | h2 | h2) hne <;> subst h2
      · exact absurd rfl hne
      · refine ⟨by simp [lifelineFlag, hd1], fun hun2 => ?_⟩
        have ha : s.lifelinesUsed.audience = false := by
          simpa [lifelineFlag, hd1] using hun2
        exact ⟨_, useLifeline_audience_ok _ now3 sid _ hget ha⟩
      · refine ⟨by simp [lifelineFlag, hd2, hd3], fun hun2 => ?_⟩
        have hp : s.lifelinesUsed.phone = false := by
          simpa [lifelineFlag, hd2, hd3] using hun2
        exact ⟨_, useLifeline_phone_ok _ now3 sid _ hget hp⟩
  · subst hka
    have hflag : s.lifelinesUsed.audience = false := by
      simpa [lifelineFlag, hd1] using hunused
    have hget := getSession_updateSession st now
      ({ s with lifelinesUsed := { s.lifelinesUsed with audience := true } })
      sid hid
    refine ⟨_, _, useLifeline_audience_ok st now sid s hs hflag, hget, ?_, ?_, ?_⟩
    · simp [lifelineFlag, hd1]
    · exact ⟨_, useLifeline_audience_used _ now2 sid _ hget rfl⟩
    · rintro kind2 (h2 | h2 | h2) hne <;> subst h2
      · refine ⟨by simp [lifelineFlag], fun hun2 => ?_⟩
        have hf : s.lifelinesUsed.fiftyFifty = false := by
          simpa [lifelineFlag] using hun2
        exact ⟨_, useLifeline_fifty_ok _ now3 sid _ hget hf⟩
      · exact absurd rfl hne
      · refine ⟨by simp [lifelineFlag, hd2, hd3], fun hun2 => ?_⟩
        have hp : s.lifelinesUsed.phone = false := by
          simpa [lifelineFlag, hd2, hd3] using hun2
        exact ⟨_, useLifeline_phone_ok _ now3 sid _ hget hp⟩
  · subst hkp
    have hflag : s.lifelinesUsed.phone = false := by
      simpa [lifelineFlag, hd2, hd3] using hunused
    have hget := getSession_updateSession st now
      ({ s with lifelinesUsed := { s.lifelinesUsed with phone := true } })
      sid hid
    refine ⟨_, _, useLifeline_phone_ok st now sid s hs hflag, hget, ?_, ?_, ?_⟩
    · simp [lifelineFlag, hd2, hd3]
    · exact ⟨_, useLifeline_phone_used _ now2 sid _ hget rfl⟩
    · rintro kind2 (h2 | h2 | h2) hne <;> subst h2
      · refine ⟨by simp [lifelineFlag], fun hun2 => ?_⟩
        have hf : s.lifelinesUsed.fiftyFifty = false := by
          simpa [lifelineFlag] using hun2
        exact ⟨_, useLifeline_fifty_ok _ now3 sid _ hget hf⟩
      · refine ⟨by simp [lifelineFlag, hd1], fun hun2 => ?_⟩
        have ha : s.lifelinesUsed.audience = false := by
          simpa [lifelineFlag, hd1] using hun2
        exact ⟨_, useLifeline_audience_ok _ now3 sid _ hget ha⟩
      · exact absurd rfl hne

/-- C6 witness: Ana uses the audience lifeline; the other two remain
available. -/
theorem useLifeline_one_shot_and_independent_witness :
    ∃ st' s', useLifeline sampleStore 0 "s1" "audience" = Except.ok st' ∧
      getSession st' "s1" = some s' ∧ lifelineFlag s' "audience" = true ∧
      (∃ msg, useLifeline st' 1 "s1" "audience" = Except.error msg) ∧
      (∀ kind2, (kind2 = "fiftyFifty" ∨ kind2 = "audience" ∨ kind2 = "phone") →
        kind2 ≠ "audience" →
        lifelineFlag s' kind2 = lifelineFlag anaSession kind2 ∧
        (lifelineFlag anaSession kind2 = false →
          ∃ st2, useLifeline st' 2 "s1" kind2 = Except.ok st2)) :=
  useLifeline_one_shot_and_independent sampleStore 0 1 2 "s1" "audience"
    anaSession rfl rfl (Or.inr (Or.inl rfl)) (by decide)

/- ------------------------------------------------------------------ -/
/- C3                                                                  -/
/- ------------------------------------------------------------------ -/

theorem findSome?_eq_none_forall {α β : Type} (f : α → Option β) (l : List α)
    (h : l.findSome? f = none) : ∀ x ∈ l, f x = none := by
  induction l with
  | nil => intro x hx; cases hx
  | cons a t ih =>
    intro x hx
    rcases hfa : f a with - | b
    · simp only [List.findSome?, hfa] at h
      rcases List.mem_cons.mp hx with hxa | hxt
      · rwa [hxa]
      · exact ih h x hxt
    · simp [List.findSome?, hfa] at h

theorem findSome?_eq_some_of_unique {α β : Type} (f : α → Option β)
    (l : List α) (a : α) (v : β) (ha : a ∈ l) (hfa : f a = some v)
    (hother : ∀ x ∈ l, x ≠ a → f x = none) :
    l.findSome? f = some v := by
  induction l with
  | nil => cases ha
  | cons x t ih =>
    by_cases hx : x = a
    · subst hx
      simp [List.findSome?, hfa]
    · have hfx : f x = none := hother x (List.mem_cons_self x t) hx
      simp only [List.findSome?, hfx]
      have hat : a ∈ t := by
        rcases List.mem_cons.mp ha with h1 | h1
        · exact absurd h1.symm hx
        · exact h1
      exact ih hat fun y hy hya => hother y (List.mem_cons_of_mem x hy) hya

/-- setAdd never changes the session records. -/
theorem setAdd_kv (st : Store) (k : RKey) (m : String) :
    (setAdd st k m).kv = st.kv := by
  by_cases hm : m ∈ setMembers st k <;> simp [setAdd, hm]

/-- getSession is unaffected by setAdd. -/
theorem getSession_setAdd (st : Store) (k : RKey) (m : String) (x : String) :
    getSession (setAdd st k m) x = getSession st x := by
  simp [getSession, kvGet, setAdd_kv]

/-- setAdd on one key leaves the members of every other key unchanged. -/
theorem setMembers_setAdd_ne (st : Store) (k k' : RKey) (m : String)
    (h : k' ≠ k) : setMembers (setAdd st k m) k' = setMembers st k' := by
  by_cases hm : m ∈ setMembers st k
  · simp [setAdd, hm]
  · simp only [setAdd, setMembers] at hm ⊢
    rw [if_neg hm]
    exact congrArg (fun o => Option.getD o []) (alistGet_set_ne st.sets k k' _ h)

/-- The member just SADDed is in the set. -/
theorem mem_setMembers_setAdd_self (st : Store) (k : RKey) (m : String) :
    m ∈ setMembers (setAdd st k m) k := by
  by_cases hm : m ∈ setMembers st k
  · simp [setAdd, hm]
  · simp only [setAdd, setMembers] at hm ⊢
    rw [if_neg hm]
    simp [alistGet_set_self]

/-- Members after SADD: unchanged when present, appended when absent. -/
theorem setMembers_setAdd_self (st : Store) (k : RKey) (m : String) :
    setMembers (setAdd st k m) k =
      if m ∈ setMembers st k then setMembers st k
      else setMembers st k ++ [m] := by
  by_cases hm : m ∈ setMembers st k
  · simp [setAdd, hm]
  · simp only [setAdd, setMembers] at hm ⊢
    rw [if_neg hm, if_neg hm]
    simp [alistGet_set_self]

/-- saveSession never changes any set. -/
theorem setMembers_saveSession (st : Store) (s : GameSession) (k : RKey) :
    setMembers (saveSession st s) k = setMembers st k := rfl

/-- Reading back the session just saved. -/
theorem getSession_saveSession_self (st : Store) (s : GameSession) :
    getSession (saveSession st s) s.id = some s := by
  simp [getSession, saveSession, kvSet, kvGet, alistGet_set_self]

/-- saveSession leaves other session records untouched. -/
theorem getSession_saveSession_ne (st : Store) (s : GameSession) (x : String)
    (h : x ≠ s.id) : getSession (saveSession st s) x = getSession st x := by
  simp only [getSession, saveSession, kvSet, kvGet]
  exact alistGet_set_ne _ _ _ _ (by simp [h])

/-- C3: createOrResumeSession is idempotent: calling CreateSession twice
for the same player name returns the same session (hence the same id) both
times, and the second call leaves the store exactly as the first call left
it — no new session is created.  This holds whether or not the player
already had an active session before the first call. -/
theorem createSession_idempotent (st : Store) (now now2 : Nat)
    (id1 id2 name : String) :
    (createSession (createSession st now id1 name).2 now2 id2 name).1 =
      (createSession st now id1 name).1 ∧
    (createSession (createSession st now id1 name).2 now2 id2 name).2 =
      (createSession st now id1 name).2 := by
  rcases h : getActiveSessionByPlayer st name with - | s0
  · -- no active session yet: the first call creates and indexes a session
    have hfirst :
        createSession st now id1 name =
          (({ id := id1, playerName := name, currentQuestion := 1,
              totalPrize := 0, lifelinesUsed := {}, answersGiven := [],
              gameStatus := "active", startTime := now, lastActivity := now,
              currentQuestionID := 0 } : GameSession),
           addToPlayerSessions
             (addToActiveSessions
               (saveSession st
                 { id := id1, playerName := name, currentQuestion := 1,
                   totalPrize := 0, lifelinesUsed := {}, answersGiven := [],
                   gameStatus := "active", startTime := now,
                   lastActivity := now, currentQuestionID := 0 }) id1)
             name id1) := by
      rw [createSession, h]
    rw [hfirst]
    set sNew : GameSession :=
      { id := id1, playerName := name, currentQuestion := 1, totalPrize := 0,
        lifelinesUsed := {}, answersGiven := [], gameStatus := "active",
        startTime := now, lastActivity := now, currentQuestionID := 0 }
      with hsNew
    set st3 : Store :=
      addToPlayerSessions (addToActiveSessions (saveSession st sNew) id1)
        name id1 with hst3
    -- the new session is readable in st3 under id1, other ids read as in st
    have hkv1 : getSession st3 id1 = some sNew := by
      rw [hst3]
      simp only [addToPlayerSessions, addToActiveSessions, getSession_setAdd]
      have : sNew.id = id1 := by rw [hsNew]
      rw [← this]
      exact getSession_saveSession_self st sNew
    have hkvne : ∀ x : String, x ≠ id1 → getSession st3 x = getSession st x := by
      intro x hx
      rw [hst3]
      simp only [addToPlayerSessions, addToActiveSessions, getSession_setAdd]
      exact getSession_saveSession_ne st sNew x (by rw [hsNew]; exact hx)
    -- the player's id list in st3 is the old one, possibly with id1 appended
    have hmem : id1 ∈ getPlayerSessions st3 name := by
      rw [hst3]
      exact mem_setMembers_setAdd_self _ (RKey.playerSessions name) id1
    have hbase : setMembers (addToActiveSessions (saveSession st sNew) id1)
        (RKey.playerSessions name) = getPlayerSessions st name := by
      rw [addToActiveSessions, setMembers_setAdd_ne _ _ _ _ (by simp)]
      exact setMembers_saveSession st sNew (RKey.playerSessions name)
    have hsub : ∀ x : String, x ∈ getPlayerSessions st3 name →
        x = id1 ∨ x ∈ getPlayerSessions st name := by
      intro x hx
      rw [hst3] at hx
      simp only [getPlayerSessions, addToPlayerSessions] at hx
      rw [setMembers_setAdd_self, hbase] at hx
      split at hx
      · exact Or.inr hx
      · rcases List.mem_append.mp hx with h1 | h1
        · exact Or.inr h1
        · exact Or.inl (List.mem_singleton.mp h1)
    -- every old id still fails to produce an active session
    have hnone := findSome?_eq_none_forall _ _ h
    have hfind : getActiveSessionByPlayer st3 name = some sNew := by
      rw [getActiveSessionByPlayer]
      refine findSome?_eq_some_of_unique _ _ id1 sNew hmem ?_ ?_
      · rw [hkv1]
        simp
      · intro x hx hxne
        rcases hsub x hx with h1 | h1
        · exact absurd h1 hxne
        · rw [hkvne x hxne]
          exact hnone x h1
    rw [createSession, hfind]
    exact ⟨rfl, rfl⟩
  · -- an active session already exists: both calls return it unchanged
    have hfirst : createSession st now id1 name = (s0, st) := by
      rw [createSession, h]
    rw [hfirst, createSession, h]
    exact ⟨rfl, rfl⟩

/- ------------------------------------------------------------------ -/
/- C5                                                                  -/
/- ------------------------------------------------------------------ -/

/-- setRemove filters the member out of its own key. -/
theorem setMembers_setRemove_self (st : Store) (k : RKey) (m : String) :
    setMembers (setRemove st k m) k = (setMembers st k).filter (· ≠ m) := by
  simp [setRemove, setMembers, alistGet_set_self]

/-- One scan step never changes the session records. -/
theorem gasStep_kv (acc : List GameSession × Store) (sid : String) :
    (gasStep acc sid).2.kv = acc.2.kv := by
  rcases h : getSession acc.2 sid with - | s
  · simp only [gasStep, h]
  · simp only [gasStep, h]
    by_cases h1 : s.gameStatus = "active" ∨ s.gameStatus = "eliminated"
    · rw [if_pos h1]
    · rw [if_neg h1]
      by_cases h2 : s.gameStatus = "finished"
      · rw [if_pos h2]
        rfl
      · rw [if_neg h2]

/-- One scan step reads sessions exactly as before. -/
theorem getSession_gasStep (acc : List GameSession × Store) (sid x : String) :
    getSession (gasStep acc sid).2 x = getSession acc.2 x := by
  simp [getSession, kvGet, gasStep_kv]

/-- The scan result extends the accumulator. -/
theorem gasLoop_fst_prefix (l : List String) (acc : List GameSession × Store) :
    ∃ t, (gasLoop acc l).1 = acc.1 ++ t := by
  induction l generalizing acc with
  | nil => exact ⟨[], by simp [gasLoop]⟩
  | cons sid rest ih =>
    obtain ⟨t, ht⟩ := ih (gasStep acc sid)
    rcases h : getSession acc.2 sid with - | s
    · refine ⟨t, ?_⟩
      rw [gasLoop, ht]
      simp only [gasStep, h]
    · by_cases h1 : s.gameStatus = "active" ∨ s.gameStatus = "eliminated"
      · refine ⟨s :: t, ?_⟩
        rw [gasLoop, ht]
        simp only [gasStep, h]
        rw [if_pos h1]
        simp
      · refine ⟨t, ?_⟩
        rw [gasLoop, ht]
        simp only [gasStep, h]
        rw [if_neg h1]
        by_cases h2 : s.gameStatus = "finished"
        · rw [if_pos h2]
        · rw [if_neg h2]

/-- Everything the scan returns is either carried in from the accumulator
or has status "active" or "eliminated". -/
theorem gasLoop_fst_status (l : List String) (acc : List GameSession × Store)
    (x : GameSession) (hx : x ∈ (gasLoop acc l).1) :
    x ∈ acc.1 ∨ x.gameStatus = "active" ∨ x.gameStatus = "eliminated" := by
  induction l generalizing acc with
  | nil => exact Or.inl (by simpa [gasLoop] using hx)
  | cons sid rest ih =>
    rw [gasLoop] at hx
    rcases ih (gasStep acc sid) hx with hmem | hst
    · rcases h : getSession acc.2 sid with - | s
      · simp only [gasStep, h] at hmem
        exact Or.inl hmem
      · simp only [gasStep, h] at hmem
        by_cases h1 : s.gameStatus = "active" ∨ s.gameStatus = "eliminated"
        · rw [if_pos h1] at hmem
          rcases List.mem_append.mp hmem with h2 | h2
          · exact Or.inl h2
          · rw [List.mem_singleton.mp h2]
            exact Or.inr h1
        · rw [if_neg h1] at hmem
          by_cases h2 : s.gameStatus = "finished"
          · rw [if_pos h2] at hmem
            exact Or.inl hmem
          · rw [if_neg h2] at hmem
            exact Or.inl hmem
    · exact Or.inr hst

/-- A session that an index entry resolves to with status "eliminated" is
returned by the scan. -/
theorem gasLoop_mem_of_eliminated (l : List String)
    (acc : List GameSession × Store) (sid : String) (s : GameSession)
    (hl : sid ∈ l) (hs : getSession acc.2 sid = some s)
    (helim : s.gameStatus = "eliminated") :
    s ∈ (gasLoop acc l).1 := by
  induction l generalizing acc with
  | nil => cases hl
  | cons x rest ih =>
    rw [gasLoop]
    rcases List.mem_cons.mp hl with hx | hx
    · subst hx
      have hstep : (gasStep acc sid).1 = acc.1 ++ [s] := by
        simp only [gasStep, hs]
        rw [if_pos (Or.inr helim)]
      obtain ⟨t, ht⟩ := gasLoop_fst_prefix rest (gasStep acc sid)
      rw [ht, hstep]
      simp
    · exact ih (gasStep acc x) hx
        (by rw [getSession_gasStep]; exact hs)

/-- The scan only ever shrinks the active-session index. -/
theorem gasLoop_members_subset (l : List String)
    (acc : List GameSession × Store) (x : String)
    (hx : x ∈ setMembers (gasLoop acc l).2 RKey.activeSessions) :
    x ∈ setMembers acc.2 RKey.activeSessions := by
  induction l generalizing acc with
  | nil => simpa [gasLoop] using hx
  | cons sid rest ih =>
    rw [gasLoop] at hx
    have h1 := ih (gasStep acc sid) hx
    rcases h : getSession acc.2 sid with - | s
    · simpa only [gasStep, h] using h1
    · simp only [gasStep, h] at h1
      by_cases hst : s.gameStatus = "active" ∨ s.gameStatus = "eliminated"
      · rwa [if_pos hst] at h1
      · rw [if_neg hst] at h1
        by_cases h2 : s.gameStatus = "finished"
        · rw [if_pos h2] at h1
          rw [show (acc.1, removeFromActiveSessions acc.2 sid).2 =
              removeFromActiveSessions acc.2 sid from rfl,
            removeFromActiveSessions, setMembers_setRemove_self] at h1
          exact List.mem_of_mem_filter h1
        · rwa [if_neg h2] at h1

/-- An index entry that resolves to a "finished" session is removed from
the active-session index by the scan. -/
theorem gasLoop_removes_finished (l : List String)
    (acc : List GameSession × Store) (sid : String) (s : GameSession)
    (hl : sid ∈ l) (hs : getSession acc.2 sid = some s)
    (hfin : s.gameStatus = "finished") :
    sid ∉ setMembers (gasLoop acc l).2 RKey.activeSessions := by
  induction l generalizing acc with
  | nil => cases hl
  | cons x rest ih =>
    rw [gasLoop]
    rcases List.mem_cons.mp hl with hx | hx
    · subst hx
      have hst : ¬ (s.gameStatus = "active" ∨ s.gameStatus = "eliminated") := by
        rw [hfin]
        rintro (h | h) <;> exact absurd h (by decide)
      have hstep : (gasStep acc sid).2 = removeFromActiveSessions acc.2 sid := by
        simp only [gasStep, hs]
        rw [if_neg hst, if_pos hfin]
      intro hmem
      have hsubm := gasLoop_members_subset rest (gasStep acc sid) sid hmem
      rw [hstep, removeFromActiveSessions, setMembers_setRemove_self] at hsubm
      have hne := List.of_mem_filter hsubm
      simp at hne
    · exact ih (gasStep acc x) hx
        (by rw [getSession_gasStep]; exact hs)

/-- C5: the active-session listing never contains a "finished" session,
contains every indexed session whose status is "eliminated", and removes
every index entry that resolves to a "finished" session from the
active-session index as a side effect. -/
theorem getActiveSessions_spec (st : Store) :
    (∀ s ∈ (getActiveSessions st).1, s.gameStatus ≠ "finished") ∧
    (∀ sid ∈ setMembers st RKey.activeSessions, ∀ s : GameSession,
      getSession st sid = some s → s.gameStatus = "eliminated" →
      s ∈ (getActiveSessions st).1) ∧
    (∀ sid ∈ setMembers st RKey.activeSessions, ∀ s : GameSession,
      getSession st sid = some s → s.gameStatus = "finished" →
      sid ∉ setMembers (getActiveSessions st).2 RKey.activeSessions) := by
  refine ⟨?_, ?_, ?_⟩
  · intro s hs
    rcases gasLoop_fst_status _ ([], st) s hs with hmem | hst | hst
    · cases hmem
    · rw [hst]
      decide
    · rw [hst]
      decide
  · intro sid hsid s hs helim
    exact gasLoop_mem_of_eliminated _ ([], st) sid s hsid hs helim
  · intro sid hsid s hs hfin
    exact gasLoop_removes_finished _ ([], st) sid s hsid hs hfin

/-- C5 witness: in `mixedStore`, eliminated Ana is listed and finished
Bob's id is dropped from the index. -/
theorem getActiveSessions_spec_witness :
    anaEliminated ∈ (getActiveSessions mixedStore).1 ∧
    "s2" ∉ setMembers (getActiveSessions mixedStore).2 RKey.activeSessions :=
  ⟨(getActiveSessions_spec mixedStore).2.1 "s1" (by decide) anaEliminated rfl rfl,
   (getActiveSessions_spec mixedStore).2.2 "s2" (by decide) _ rfl rfl⟩

/- ------------------------------------------------------------------ -/
/- C4                                                                  -/
/- ------------------------------------------------------------------ -/

/-- DEL empties the deleted set. -/
theorem setMembers_delKey_self (st : Store) (k : RKey) :
    setMembers (delKey st k) k = [] := by
  simp [delKey, setMembers, alistGet_del_self]

/-- DEL of one key leaves every other set unchanged. -/
theorem setMembers_delKey_ne (st : Store) (k k' : RKey) (h : k' ≠ k) :
    setMembers (delKey st k) k' = setMembers st k' := by
  simp only [delKey, setMembers]
  rw [alistGet_del_ne _ _ _ h]

/-- After ClearAllSessions the active-session index is gone. -/
theorem clearAllSessions_active_index (st : Store) :
    setMembers (clearAllSessions st) RKey.activeSessions = [] := by
  simp only [clearAllSessions]
  rw [setMembers_delKey_ne _ _ _ (by simp),
    setMembers_delKey_ne _ _ _ (by simp), setMembers_delKey_self]

/-- A store whose active-session index is empty lists no sessions. -/
theorem getActiveSessions_fst_of_empty (st : Store)
    (h : setMembers st RKey.activeSessions = []) :
    (getActiveSessions st).1 = [] := by
  rw [getActiveSessions, h]
  rfl

/-- C4: when a round is active, the round-end handler performs, in order,
the "gameEnded" broadcast, then the full session wipe (ClearAllSessions),
then the broadcast of the inactive game state — and afterwards the
active-session listing is empty. -/
theorem endGame_order_and_wipe (st : Store) (hasSS : Bool) (now : Nat)
    (hact : ((getGameState st hasSS).1).isActive = true) :
    ∃ st', endGameHandler st hasSS now =
        Except.ok (st', [EndEvent.broadcastGameEnded, EndEvent.clearAllData,
          EndEvent.broadcastInactiveState]) ∧
      (getActiveSessions st').1 = [] := by
  refine ⟨clearAllSessions (endGameService
      (getActiveSessions (getGameState st hasSS).2).2 hasSS now), ?_, ?_⟩
  · simp only [endGameHandler]
    rw [if_neg (by simp [hact])]
    rfl
  · exact getActiveSessions_fst_of_empty _ (clearAllSessions_active_index _)

/-- C4 witness: ending the active round on the mixed store yields the
three events in order and an empty active-session listing. -/
theorem endGame_order_and_wipe_witness :
    ∃ st', endGameHandler activeRoundStore true 7 =
        Except.ok (st', [EndEvent.broadcastGameEnded, EndEvent.clearAllData,
          EndEvent.broadcastInactiveState]) ∧
      (getActiveSessions st').1 = [] :=
  endGame_order_and_wipe activeRoundStore true 7 (by decide)

/- ------------------------------------------------------------------ -/
/- C9                                                                  -/
/- ------------------------------------------------------------------ -/

/-- C9 failing input: on `mixedStore`, ClearAllSessions deletes Ana's
record and the active index, but (a) Ana's player-history set under
"quiz:player_sessions:Ana" survives, because the code deletes the never-
written key "quiz:player:Ana:sessions" instead, and (b) finished Bob's
session record survives, because the deletion loop only covers the
sessions the active scan returned (active/eliminated ones). -/
theorem clearAllSessions_leaves_data :
    setMembers (clearAllSessions mixedStore) (RKey.playerSessions "Ana") =
      ["s1"] ∧
    setMembers (clearAllSessions mixedStore) (RKey.playerSessions "Bob") =
      ["s2"] ∧
    getSession (clearAllSessions mixedStore) "s2" = some bobFinished ∧
    getSession (clearAllSessions mixedStore) "s1" = none ∧
    setMembers (clearAllSessions mixedStore) RKey.activeSessions = [] := by
  refine ⟨?_, ?_, ?_, ?_, ?_⟩ <;> rfl

/- ------------------------------------------------------------------ -/
/- C7                                                                  -/
/- ------------------------------------------------------------------ -/

/-- C7 counterexample: Ana reaches totalPrize = 1000000 by 15 correct
answers; a sixteenth correct submission — which SubmitAnswer accepts —
overwrites totalPrize with 0, a strict decrease caused by a correct
answer at an ordinal beyond the prize table. -/
theorem totalPrize_decreases_after_table_end :
    (getSession champStore "s1").map GameSession.totalPrize = some 1000000 ∧
    (getSession champStore "s1").map GameSession.gameStatus = some "finished" ∧
    "A" = sampleQuestion.correct ∧
    (∃ st', submitAnswer champStore 0 "s1" 1 "A" 0 = Except.ok st' ∧
      (getSession st' "s1").map GameSession.totalPrize = some 0) := by
  exact ⟨rfl, rfl, rfl, ⟨_, rfl, rfl⟩⟩

/-- C7 amended: totalPrize is written only by a correct answer: an
incorrect submission and any successful lifeline use leave it unchanged;
a correct answer at ordinal k ≤ 15 sets it to the table entry at k−1
(never a decrease while the running prize does not exceed that entry,
which holds for every value the code itself assigns at lower ordinals);
a correct answer at ordinal k > 15 overwrites it with 0. -/
theorem totalPrize_update_characterization
    (st : Store) (now : Nat) (sid : String) (s : GameSession) (q : Question)
    (qid tta k : Int) (sel : String)
    (hs : getSession st sid = some s) (hid : s.id = sid)
    (hk : s.currentQuestion = k) (hk1 : 1 ≤ k)
    (hq : getQuestion st qid = some q) (hqid : 0 < qid) :
    (sel ≠ q.correct →
      ∃ st' s', submitAnswer st now sid qid sel tta = Except.ok st' ∧
        getSession st' sid = some s' ∧ s'.totalPrize = s.totalPrize) ∧
    (∀ kind st2, useLifeline st now sid kind = Except.ok st2 →
      ∃ s', getSession st2 sid = some s' ∧ s'.totalPrize = s.totalPrize) ∧
    (sel = q.correct → k ≤ 15 →
      ∃ st' s', submitAnswer st now sid qid sel tta = Except.ok st' ∧
        getSession st' sid = some s' ∧
        s'.totalPrize = prizeLevels.getD (k - 1).toNat 0 ∧
        (s.totalPrize ≤ prizeLevels.getD (k - 1).toNat 0 →
          s.totalPrize ≤ s'.totalPrize)) ∧
    (sel = q.correct → 15 < k →
      ∃ st' s', submitAnswer st now sid qid sel tta = Except.ok st' ∧
        getSession st' sid = some s' ∧ s'.totalPrize = 0) := by
  have hsub := submitAnswer_eq st now sid qid tta sel s q hs hq hqid (by omega)
  have hget := getSession_updateSession_self st now
    (applyAnswer s (submittedAnswer s q qid sel tta now))
  rw [applyAnswer_id, hid] at hget
  refine ⟨?_, ?_, ?_, ?_⟩
  · intro hc
    obtain ⟨-, h2, -, -⟩ := applyAnswer_incorrect s
      (submittedAnswer s q qid sel tta now) (by simp [submittedAnswer, hc])
    exact ⟨_, _, hsub, hget, h2⟩
  · intro kind st2 hok
    simp only [useLifeline, hs] at hok
    by_cases k1 : kind = "fiftyFifty"
    · rw [if_pos k1] at hok
      by_cases f1 : s.lifelinesUsed.fiftyFifty = true
      · rw [if_pos f1] at hok
        simp at hok
      · rw [if_neg f1] at hok
        simp only [Except.ok.injEq] at hok
        subst hok
        exact ⟨_, getSession_updateSession st now _ sid hid, rfl⟩
    · rw [if_neg k1] at hok
      by_cases k2 : kind = "audience"
      · rw [if_pos k2] at hok
        by_cases f2 : s.lifelinesUsed.audience = true
        · rw [if_pos f2] at hok
          simp at hok
        · rw [if_neg f2] at hok
          simp only [Except.ok.injEq] at hok
          subst hok
          exact ⟨_, getSession_updateSession st now _ sid hid, rfl⟩
      · rw [if_neg k2] at hok
        by_cases k3 : kind = "phone"
        · rw [if_pos k3] at hok
          by_cases f3 : s.lifelinesUsed.phone = true
          · rw [if_pos f3] at hok
            simp at hok
          · rw [if_neg f3] at hok
            simp only [Except.ok.injEq] at hok
            subst hok
            exact ⟨_, getSession_updateSession st now _ sid hid, rfl⟩
        · rw [if_neg k3] at hok
          simp at hok
  · intro hc hk15
    obtain ⟨-, h2, -, -⟩ := applyAnswer_correct s
      (submittedAnswer s q qid sel tta now) (by simp [submittedAnswer, hc])
    refine ⟨_, _, hsub, hget, ?_, ?_⟩
    · show (applyAnswer s (submittedAnswer s q qid sel tta now)).totalPrize =
        prizeLevels.getD (k - 1).toNat 0
      rw [h2]
      simp only [submittedAnswer]
      rw [if_pos ⟨hc, by rw [hk, prizeLevels_length]; omega⟩, hk]
    · intro hb
      show s.totalPrize ≤
        (applyAnswer s (submittedAnswer s q qid sel tta now)).totalPrize
      rw [h2]
      simp only [submittedAnswer]
      rw [if_pos ⟨hc, by rw [hk, prizeLevels_length]; omega⟩, hk]
      exact hb
  · intro hc hk15
    obtain ⟨-, h2, -, -⟩ := applyAnswer_correct s
      (submittedAnswer s q qid sel tta now) (by simp [submittedAnswer, hc])
    refine ⟨_, _, hsub, hget, ?_⟩
    show (applyAnswer s (submittedAnswer s q qid sel tta now)).totalPrize = 0
    rw [h2]
    simp only [submittedAnswer]
    rw [if_neg]
    rintro ⟨-, hle⟩
    rw [hk, prizeLevels_length] at hle
    omega

/-- C7 amended witness: instantiated at fresh Ana with the incorrect
option "B". -/
theorem totalPrize_update_characterization_witness :
    ("B" ≠ sampleQuestion.correct →
      ∃ st' s', submitAnswer sampleStore 0 "s1" 1 "B" 0 = Except.ok st' ∧
        getSession st' "s1" = some s' ∧
        s'.totalPrize = anaSession.totalPrize) ∧
    (∀ kind st2, useLifeline sampleStore 0 "s1" kind = Except.ok st2 →
      ∃ s', getSession st2 "s1" = some s' ∧
        s'.totalPrize = anaSession.totalPrize) ∧
    ("B" = sampleQuestion.correct → (1 : Int) ≤ 15 →
      ∃ st' s', submitAnswer sampleStore 0 "s1" 1 "B" 0 = Except.ok st' ∧
        getSession st' "s1" = some s' ∧
        s'.totalPrize = prizeLevels.getD ((1 : Int) - 1).toNat 0 ∧
        (anaSession.totalPrize ≤ prizeLevels.getD ((1 : Int) - 1).toNat 0 →
          anaSession.totalPrize ≤ s'.totalPrize)) ∧
    ("B" = sampleQuestion.correct → (15 : Int) < 1 →
      ∃ st' s', submitAnswer sampleStore 0 "s1" 1 "B" 0 = Except.ok st' ∧
        getSession st' "s1" = some s' ∧ s'.totalPrize = 0) :=
  totalPrize_update_characterization sampleStore 0 "s1" anaSession
    sampleQuestion 1 0 1 "B" rfl rfl rfl (by decide) rfl (by decide)

/- ------------------------------------------------------------------ -/
/- C8                                                                  -/
/- ------------------------------------------------------------------ -/

/-- The running maximum in calculateCurrentQuestion dominates its seed and
every scanned ordinal. -/
theorem maxFold_bounds (l : List GameSession) (m : Int) :
    m ≤ l.foldl
        (fun m s => if s.currentQuestion > m then s.currentQuestion else m) m ∧
    ∀ s ∈ l, s.currentQuestion ≤ l.foldl
        (fun m s => if s.currentQuestion > m then s.currentQuestion else m) m := by
  induction l generalizing m with
  | nil => exact ⟨le_refl m, by intro s hs; cases hs⟩
  | cons x t ih =>
    have hstep : m ≤ if x.currentQuestion > m then x.currentQuestion else m := by
      by_cases h : x.currentQuestion > m
      · rw [if_pos h]
        omega
      · rw [if_neg h]
    have hx : x.currentQuestion ≤
        if x.currentQuestion > m then x.currentQuestion else m := by
      by_cases h : x.currentQuestion > m
      · rw [if_pos h]
      · rw [if_neg h]
        omega
    obtain ⟨h1, h2⟩ := ih (if x.currentQuestion > m then x.currentQuestion else m)
    refine ⟨le_trans hstep h1, ?_⟩
    intro s hs
    rcases List.mem_cons.mp hs with h | h
    · subst h
      exact le_trans hx h1
    · exact h2 s h

/-- The running maximum is the seed or one of the scanned ordinals. -/
theorem maxFold_attained (l : List GameSession) (m : Int) :
    l.foldl (fun m s => if s.currentQuestion > m then s.currentQuestion else m) m
        = m ∨
    ∃ s ∈ l, l.foldl
        (fun m s => if s.currentQuestion > m then s.currentQuestion else m) m
        = s.currentQuestion := by
  induction l generalizing m with
  | nil => exact Or.inl rfl
  | cons x t ih =>
    rcases ih (if x.currentQuestion > m then x.currentQuestion else m) with h | h
    · by_cases hx : x.currentQuestion > m
      · refine Or.inr ⟨x, List.mem_cons_self x t, ?_⟩
        rw [List.foldl_cons, h, if_pos hx]
      · refine Or.inl ?_
        rw [List.foldl_cons, h, if_neg hx]
    · obtain ⟨s, hsmem, hs⟩ := h
      exact Or.inr ⟨s, List.mem_cons_of_mem x hsmem, hs⟩

/-- GetGameState on an active round reports the value
calculateCurrentQuestion computes, whatever CurrentQuestion the stored
GameState record carried. -/
theorem getGameState_currentQuestion (st : Store) (gs : GameState)
    (hgs : st.gameState = some gs) (hact : gs.isActive = true) :
    ((getGameState st true).1).currentQuestion =
      (calculateCurrentQuestion st).1 := by
  simp only [getGameState, hgs]
  rw [if_pos (show True ∧ gs.isActive = true from ⟨trivial, hact⟩)]
  dsimp only
  by_cases hmq : gs.maxQuestions = 0
  · rw [if_pos hmq]
  · rw [if_neg hmq]

/-- C8: when a round is active (and the session service is injected),
getState's currentQuestion is recomputed from the sessions the
active-session listing returns at that moment — for any stored
CurrentQuestion counter value: it is 1 when the listing is empty, it
dominates every listed ordinal, and (for 1-based ordinals) it is one of
the listed ordinals when the listing is non-empty. -/
theorem gameState_currentQuestion_is_max (st : Store) (gs : GameState)
    (hgs : st.gameState = some gs) (hact : gs.isActive = true) :
    ((getActiveSessions st).1 = [] →
      ((getGameState st true).1).currentQuestion = 1) ∧
    (∀ s ∈ (getActiveSessions st).1,
      s.currentQuestion ≤ ((getGameState st true).1).currentQuestion) ∧
    ((getActiveSessions st).1 ≠ [] →
      (∀ s ∈ (getActiveSessions st).1, 1 ≤ s.currentQuestion) →
      ∃ s ∈ (getActiveSessions st).1,
        ((getGameState st true).1).currentQuestion = s.currentQuestion) := by
  rw [getGameState_currentQuestion st gs hgs hact]
  refine ⟨?_, ?_, ?_⟩
  · intro hempty
    simp [calculateCurrentQuestion, hempty]
  · intro s hs
    have hne : ¬ (getActiveSessions st).1.isEmpty = true := by
      rcases h : (getActiveSessions st).1 with - | ⟨a, t⟩
      · rw [h] at hs
        cases hs
      · simp [h]
    simp only [calculateCurrentQuestion]
    rw [if_neg hne]
    exact (maxFold_bounds (getActiveSessions st).1 1).2 s hs
  · intro hne hwf
    have hne2 : ¬ (getActiveSessions st).1.isEmpty = true := by
      simpa [List.isEmpty_iff] using hne
    simp only [calculateCurrentQuestion]
    rw [if_neg hne2]
    rcases maxFold_attained (getActiveSessions st).1 1 with h | h
    · obtain ⟨a, t, hx⟩ : ∃ a t, (getActiveSessions st).1 = a :: t := by
        rcases hl : (getActiveSessions st).1 with - | ⟨a, t⟩
        · exact absurd hl hne
        · exact ⟨a, t, rfl⟩
      have hmema : a ∈ (getActiveSessions st).1 := by
        rw [hx]
        exact List.mem_cons_self a t
      refine ⟨a, hmema, ?_⟩
      have hb := (maxFold_bounds (getActiveSessions st).1 1).2 a hmema
      have ha1 := hwf a hmema
      rw [h] at hb
      omega
    · exact h

/-- C8 witness: in `activeRoundStore` (Ana eliminated at 3, Bob finished),
the listing holds only Ana, so the derived currentQuestion is her
ordinal — not the stored counter 1. -/
theorem gameState_currentQuestion_is_max_witness :
    ((getActiveSessions activeRoundStore).1 = [] →
      ((getGameState activeRoundStore true).1).currentQuestion = 1) ∧
    (∀ s ∈ (getActiveSessions activeRoundStore).1,
      s.currentQuestion ≤
        ((getGameState activeRoundStore true).1).currentQuestion) ∧
    ((getActiveSessions activeRoundStore).1 ≠ [] →
      (∀ s ∈ (getActiveSessions activeRoundStore).1, 1 ≤ s.currentQuestion) →
      ∃ s ∈ (getActiveSessions activeRoundStore).1,
        ((getGameState activeRoundStore true).1).currentQuestion =
          s.currentQuestion) :=
  gameState_currentQuestion_is_max activeRoundStore activeGameState rfl rfl

end Quiz
